import Mathlib

/-!
Shallow embedding of the bounding-box core of `blender_render_labeling.py`:
the `Box` class, `camera_view_bounds_2d`, `clamp`, `write_bounds_2d`,
`normalize`, and the label-line / label-file naming of `main`.  Floating
point arithmetic is embedded as exact rational arithmetic; mesh vertices
are taken after the two `me.transform` calls, i.e. already in camera-local
coordinates, and the three negated view-frame corners are an input.
-/

namespace RenderLabeling

/-- A 3D vector with rational components, standing for `mathutils.Vector`. -/
structure Vec3 where
  x : ℚ
  y : ℚ
  z : ℚ
deriving DecidableEq

/-- The first three corners of the camera view frame after negation
(`frame = [-v for v in camera.view_frame(scene=scene)[:3]]`). -/
structure CamFrame where
  f0 : Vec3
  f1 : Vec3
  f2 : Vec3
deriving DecidableEq

/-- Componentwise vector-by-scalar division `v / s` of `mathutils`. -/
def vdiv (v : Vec3) (s : ℚ) : Vec3 := ⟨v.x / s, v.y / s, v.z / s⟩

/-- The source's `clamp(x, minimum, maximum) = max(minimum, min(x, maximum))`. -/
def clamp (x minimum maximum : ℚ) : ℚ := max minimum (min x maximum)

/-- The `Box` class: stored bounds (`min_x`, `min_y`, `max_x`, `max_y`) in the
constructor's order, plus the render dimensions `dim_x`, `dim_y`. -/
structure Box where
  min_x : ℚ
  min_y : ℚ
  max_x : ℚ
  max_y : ℚ
  dim_x : ℚ
  dim_y : ℚ
deriving DecidableEq

/-- Property `Box.x`: `min_x * dim_x`. -/
def Box.x (b : Box) : ℚ := b.min_x * b.dim_x

/-- Property `Box.y`: `dim_y - max_y * dim_y` (raster y, flipped). -/
def Box.y (b : Box) : ℚ := b.dim_y - b.max_y * b.dim_y

/-- Property `Box.width`: `(max_x - min_x) * dim_x`. -/
def Box.width (b : Box) : ℚ := (b.max_x - b.min_x) * b.dim_x

/-- Property `Box.height`: `(max_y - min_y) * dim_y`. -/
def Box.height (b : Box) : ℚ := (b.max_y - b.min_y) * b.dim_y

/-- Method `Box.to_tuple`: the all-zero tuple when the pixel width or height is
zero, otherwise `(x, y, width, height)`. -/
def Box.to_tuple (b : Box) : ℚ × ℚ × ℚ × ℚ :=
  if b.width = 0 ∨ b.height = 0 then (0, 0, 0, 0) else (b.x, b.y, b.width, b.height)

/-- The source's `frame = [(v / (v.z / z)) for v in frame]` perspective rescale. -/
def rescaleFrame (frame : CamFrame) (z : ℚ) : CamFrame :=
  ⟨vdiv frame.f0 (frame.f0.z / z), vdiv frame.f1 (frame.f1.z / z),
    vdiv frame.f2 (frame.f2.z / z)⟩

/-- One iteration of the per-vertex loop of `camera_view_bounds_2d`, up to and
including the appends to `lx` and `ly`: state is `(lx, ly, frame)`.  When the
camera is perspective and the local depth `z = -co.z` is zero the source
appends the `(0.5, 0.5)` fallback and then still falls through to the
frame-based projection of the same vertex (there is no `continue`), so such a
vertex contributes two entries to each list. -/
def vertexStep (camera_persp : Bool) (st : List ℚ × List ℚ × CamFrame) (co : Vec3) :
    List ℚ × List ℚ × CamFrame :=
  let lx := st.1
  let ly := st.2.1
  let frame := st.2.2
  let z := -co.z
  let lx1 := if camera_persp = true ∧ z = 0 then lx ++ [1/2] else lx
  let ly1 := if camera_persp = true ∧ z = 0 then ly ++ [1/2] else ly
  let frame1 := if camera_persp = true ∧ ¬z = 0 then rescaleFrame frame z else frame
  let min_x := frame1.f1.x
  let max_x := frame1.f2.x
  let min_y := frame1.f0.y
  let max_y := frame1.f1.y
  let x := (co.x - min_x) / (max_x - min_x)
  let y := (co.y - min_y) / (max_y - min_y)
  (lx1 ++ [x], ly1 ++ [y], frame1)

/-- Python's `min` of a list, used on the nonempty `lx`/`ly` only. -/
def listMin : List ℚ → ℚ
  | [] => 0
  | a :: l => l.foldl min a

/-- Python's `max` of a list, used on the nonempty `lx`/`ly` only. -/
def listMax : List ℚ → ℚ
  | [] => 0
  | a :: l => l.foldl max a

/-- The corner test `center_x in (0., 1.) and center_y in (0., 1.)` with the
clamped centers of the accumulated extents (`mu = min lx`, `Mu = max lx`,
`mv = min ly`, `Mv = max ly`). -/
def ruleCorner (mu Mu mv Mv : ℚ) : Bool :=
  let center_x := clamp ((Mu + mu) / 2) 0 1
  let center_y := clamp ((Mv + mv) / 2) 0 1
  decide ((center_x = 0 ∨ center_x = 1) ∧ (center_y = 0 ∨ center_y = 1))

/-- The straddle test `min(l) <= 0 and max(l) >= 1` for one axis. -/
def ruleStraddle (m M : ℚ) : Bool := decide (m ≤ 0 ∧ 1 ≤ M)

/-- The `bad_bbox` flag: corner rule, or u-straddle, or v-straddle. -/
def bad_bbox (mu Mu mv Mv : ℚ) : Bool :=
  ruleCorner mu Mu mv Mv || ruleStraddle mu Mu || ruleStraddle mv Mv

/-- The suppression-and-clamp step of `camera_view_bounds_2d` as a function of
the accumulated extents: all-zero bounds when `bad_bbox`, otherwise each bound
clamped to `[0, 1]`; the result tuple is in the `Box` constructor's order
`(min_x, min_y, max_x, max_y)`. -/
def boundsDecision (mu Mu mv Mv : ℚ) : ℚ × ℚ × ℚ × ℚ :=
  if bad_bbox mu Mu mv Mv then (0, 0, 0, 0)
  else (clamp mu 0 1, clamp mv 0 1, clamp Mu 0 1, clamp Mv 0 1)

/-- The `Box` built from the decision on the accumulated extents and the render
dimensions, as at the source's `return Box(min_x, min_y, max_x, max_y, dim_x, dim_y)`. -/
def extractedBox (mu Mu mv Mv dim_x dim_y : ℚ) : Box :=
  let d := boundsDecision mu Mu mv Mv
  ⟨d.1, d.2.1, d.2.2.1, d.2.2.2, dim_x, dim_y⟩

/-- `camera_view_bounds_2d` on a mesh already in camera-local coordinates.  In
the source the concluding `return` statement sits inside the per-vertex loop
and is reached unconditionally at the end of the first iteration, so only the
first vertex is ever processed; an empty mesh falls off the loop and the
function returns `None`. -/
def camera_view_bounds_2d (camera_persp : Bool) (frame : CamFrame)
    (vertices : List Vec3) (dim_x dim_y : ℚ) : Option Box :=
  match vertices with
  | [] => none
  | co :: _ =>
    let st := vertexStep camera_persp ([], [], frame) co
    let lx := st.1
    let ly := st.2.1
    some (extractedBox (listMin lx) (listMax lx) (listMin ly) (listMax ly) dim_x dim_y)

/-- The render dimensions of lines 142-145: `fac = resolution_percentage * 0.01`,
`dim_x = resolution_x * fac`, `dim_y = resolution_y * fac`. -/
def renderDims (resolution_x resolution_y resolution_percentage : ℚ) : ℚ × ℚ :=
  let fac := resolution_percentage * (1 / 100)
  (resolution_x * fac, resolution_y * fac)

/-- `np.count_nonzero` over the four tuple components. -/
def count_nonzero (t : ℚ × ℚ × ℚ × ℚ) : Nat :=
  (if t.1 = 0 then 0 else 1) + (if t.2.1 = 0 then 0 else 1)
    + (if t.2.2.1 = 0 then 0 else 1) + (if t.2.2.2 = 0 then 0 else 1)

/-- `write_bounds_2d` from the extracted `Box` on: the tuple when some component
is nonzero, `None` otherwise (the `frame_set` call is engine state, outside the
data path). -/
def write_bounds_2d (box : Box) : Option (ℚ × ℚ × ℚ × ℚ) :=
  let t := box.to_tuple
  if count_nonzero t ≠ 0 then some t else none

/-- `normalize(data, frame_width, frame_height)` on the `(x, y, width, height)`
tuple. -/
def normalize (data : ℚ × ℚ × ℚ × ℚ) (frame_width frame_height : ℚ) : ℚ × ℚ × ℚ × ℚ :=
  let x_center := (data.1 + data.2.2.1 / 2) / frame_width
  let y_center := (data.2.1 + data.2.2.2 / 2) / frame_height
  let width := data.2.2.1 / frame_width
  let height := data.2.2.2 / frame_height
  (x_center, y_center, width, height)

/-- One label line of `main`, the f-string with class id `0`, four values and a
trailing newline (rational values rendered by `toString`). -/
def labelLine (x_center y_center width height : ℚ) : String :=
  "0 " ++ toString x_center ++ " " ++ toString y_center ++ " "
    ++ toString width ++ " " ++ toString height ++ "\n"

/-- The contribution of one labeled object to a frame's label data in `main`:
nothing when `write_bounds_2d` returns `None`, exactly one line otherwise. -/
def objectLabel (box : Box) (frame_width frame_height : ℚ) : String :=
  match write_bounds_2d box with
  | none => ""
  | some data =>
    let n := normalize data frame_width frame_height
    labelLine n.1 n.2.1 n.2.2.1 n.2.2.2

/-- Python's `str.zfill(width)` for an unsigned digit string. -/
def zfill (width : Nat) (s : String) : String :=
  if s.length < width then String.mk (List.replicate (width - s.length) '0') ++ s else s

/-- The per-frame label file name of `main`:
`frame_` + `str(frame_current).zfill(4)` + `.txt`. -/
def labelFilename (frame_current : Nat) : String :=
  "frame_" ++ zfill 4 (Nat.repr frame_current) ++ ".txt"

/-- A concrete negated view frame used in evaluations: the unit square at
reference depth 1 (corners in Blender's `view_frame` order, negated). -/
def testFrame : CamFrame := ⟨⟨-1/2, -1/2, 1⟩, ⟨-1/2, 1/2, 1⟩, ⟨1/2, 1/2, 1⟩⟩

/-! Helper lemmas shared by the claim theorems. -/

/-- Clamping to the unit interval gives a nonnegative value. -/
theorem clamp01_nonneg (x : ℚ) : 0 ≤ clamp x 0 1 := le_max_left 0 _

/-- Clamping to the unit interval gives a value at most one. -/
theorem clamp01_le_one (x : ℚ) : clamp x 0 1 ≤ 1 := max_le (by norm_num) (min_le_right x 1)

/-- Clamping to the unit interval is monotone. -/
theorem clamp01_mono {x y : ℚ} (h : x ≤ y) : clamp x 0 1 ≤ clamp y 0 1 :=
  max_le_max le_rfl (min_le_min h le_rfl)

/-- count_nonzero vanishes exactly on the all-zero tuple. -/
theorem count_nonzero_eq_zero_iff (t : ℚ × ℚ × ℚ × ℚ) :
    count_nonzero t = 0 ↔ t = (0, 0, 0, 0) := by
  obtain ⟨a, b, c, d⟩ := t
  simp only [count_nonzero, Prod.mk.injEq]
  split_ifs <;> simp_all

/-- A quotient of a value in [0, dim] by a frame length at least dim lies in
the unit interval. -/
theorem div_in_unit {num dim fw : ℚ} (hn : 0 ≤ num) (h1 : num ≤ dim) (hdf : dim ≤ fw)
    (hfw : 0 < fw) : 0 ≤ num / fw ∧ num / fw ≤ 1 :=
  ⟨div_nonneg hn (le_of_lt hfw), (div_le_one hfw).mpr (le_trans h1 hdf)⟩

/-- C1: the claim says the projection step produces one point per vertex over the
whole mesh and the extracted bounds accumulate over all vertices; the source's
return statement is inside the per-vertex loop, so on the two-vertex mesh below
the result equals that of the one-vertex prefix and its `max_x` is the first
vertex's projected coordinate 1/4, while accumulating both vertices (third
conjunct) records the second vertex's coordinate 3/4 as well. -/
theorem c1_bounds_from_first_vertex_only :
    camera_view_bounds_2d false testFrame [⟨-1/4, 0, -1⟩, ⟨1/4, 0, -1⟩] 640 480
      = camera_view_bounds_2d false testFrame [⟨-1/4, 0, -1⟩] 640 480
    ∧ (camera_view_bounds_2d false testFrame [⟨-1/4, 0, -1⟩, ⟨1/4, 0, -1⟩] 640 480).map Box.max_x
      = some (1/4)
    ∧ (vertexStep false (vertexStep false ([], [], testFrame) ⟨-1/4, 0, -1⟩) ⟨1/4, 0, -1⟩).1
      = [1/4, 3/4]
    ∧ listMax [1/4, 3/4] = (3/4 : ℚ)
    ∧ ((3:ℚ)/4 ≠ 1/4) := by
  refine ⟨rfl, ?_, ?_, ?_, by norm_num⟩
  · norm_num [camera_view_bounds_2d, vertexStep, testFrame, extractedBox, boundsDecision,
      bad_bbox, ruleCorner, ruleStraddle, clamp, listMin, listMax, Box.max_x, min_def, max_def]
  · norm_num [vertexStep, testFrame]
  · simp only [listMax, List.foldl]
    exact max_eq_right (by norm_num)

/-- C2: the extracted box is forced to all-zero bounds whenever the accumulated
u-extent straddles the frame (min_u ≤ 0 and max_u ≥ 1), symmetrically for v; in
particular bounds min_u = 0, max_u = 1 are suppressed regardless of the v
extent; and when no suppression rule fires each of the four bounds is
independently clamped to [0, 1]. -/
theorem c2_straddle_suppression_and_clamp (mu Mu mv Mv : ℚ) :
    (mu ≤ 0 ∧ 1 ≤ Mu → boundsDecision mu Mu mv Mv = (0, 0, 0, 0))
    ∧ (mv ≤ 0 ∧ 1 ≤ Mv → boundsDecision mu Mu mv Mv = (0, 0, 0, 0))
    ∧ boundsDecision 0 1 mv Mv = (0, 0, 0, 0)
    ∧ (bad_bbox mu Mu mv Mv = false →
        boundsDecision mu Mu mv Mv = (clamp mu 0 1, clamp mv 0 1, clamp Mu 0 1, clamp Mv 0 1)) := by
  refine ⟨fun h => ?_, fun h => ?_, ?_, fun h => ?_⟩
  · have hs : ruleStraddle mu Mu = true := by simp [ruleStraddle, h.1, h.2]
    simp [boundsDecision, bad_bbox, hs]
  · have hs : ruleStraddle mv Mv = true := by simp [ruleStraddle, h.1, h.2]
    simp [boundsDecision, bad_bbox, hs]
  · have hs : ruleStraddle (0 : ℚ) 1 = true := by simp [ruleStraddle]
    simp [boundsDecision, bad_bbox, hs]
  · simp [boundsDecision, h]

/-- C2 witness: the u-straddle branch, the v-straddle branch and the clamping
branch of the theorem at concrete extents. -/
theorem c2_straddle_witness :
    boundsDecision (-1) 2 (1/4) (1/2) = (0, 0, 0, 0)
    ∧ boundsDecision (1/4) (1/2) (-1) 2 = (0, 0, 0, 0)
    ∧ boundsDecision (1/8) (3/8) (1/4) (1/2) = (1/8, 1/4, 3/8, 1/2) := by
  refine ⟨(c2_straddle_suppression_and_clamp (-1) 2 (1/4) (1/2)).1 (by norm_num),
    (c2_straddle_suppression_and_clamp (1/4) (1/2) (-1) 2).2.1 (by norm_num), ?_⟩
  have h := (c2_straddle_suppression_and_clamp (1/8) (3/8) (1/4) (1/2)).2.2.2
    (by norm_num [bad_bbox, ruleCorner, ruleStraddle, clamp, min_def, max_def])
  rw [h]
  norm_num [clamp, min_def, max_def]

/-- C3 counterexample: at accumulated extents min_u = -1, max_u = 1/2,
min_v = 9/10, max_v = 6/5 the clamped center is (0, 1), which is neither (0, 0)
nor (1, 1), yet the corner rule fires and the box is zeroed while neither
straddle rule fires; so rule (a) fires at a center other than the two corners
the claim allows. -/
theorem c3_corner_rule_fires_at_mixed_corner :
    ruleCorner (-1) (1/2) (9/10) (6/5) = true
    ∧ clamp (((1:ℚ)/2 + -1) / 2) 0 1 = 0
    ∧ clamp (((6:ℚ)/5 + 9/10) / 2) 0 1 = 1
    ∧ ruleStraddle (-1) (1/2) = false
    ∧ ruleStraddle (9/10) (6/5) = false
    ∧ boundsDecision (-1) (1/2) (9/10) (6/5) = (0, 0, 0, 0)
    ∧ ¬(((0:ℚ), (1:ℚ)) = (0, 0) ∨ ((0:ℚ), (1:ℚ)) = (1, 1)) := by
  refine ⟨?_, ?_, ?_, ?_, ?_, ?_, by norm_num⟩
  · norm_num [ruleCorner, clamp, min_def, max_def]
  · norm_num [clamp, min_def, max_def]
  · norm_num [clamp, min_def, max_def]
  · norm_num [ruleStraddle]
  · norm_num [ruleStraddle]
  · norm_num [boundsDecision, bad_bbox, ruleCorner, ruleStraddle, clamp, min_def, max_def]

/-- C3 amended: rule (a) fires exactly when both coordinates of the clamped
center lie in the set of boundary values 0 and 1 — the four corners (0,0),
(0,1), (1,0), (1,1), not only (0,0) and (1,1) — and a box with clamped center
(1, 1) is suppressed, as at extents (3/4, 5/4) on both axes. -/
theorem c3_corner_rule_all_four_corners (mu Mu mv Mv : ℚ) :
    (ruleCorner mu Mu mv Mv = true ↔
      ((clamp ((Mu + mu) / 2) 0 1 = 0 ∨ clamp ((Mu + mu) / 2) 0 1 = 1)
        ∧ (clamp ((Mv + mv) / 2) 0 1 = 0 ∨ clamp ((Mv + mv) / 2) 0 1 = 1)))
    ∧ boundsDecision (3/4) (5/4) (3/4) (5/4) = (0, 0, 0, 0) := by
  constructor
  · simp [ruleCorner]
  · have hc : ruleCorner (3/4) (5/4) (3/4) (5/4) = true := by
      norm_num [ruleCorner, clamp, min_def, max_def]
    simp [boundsDecision, bad_bbox, hc]

/-- C4: the derived pixel properties of a Box are x = min_x·dim_x,
y = dim_y − max_y·dim_y, width = (max_x − min_x)·dim_x,
height = (max_y − min_y)·dim_y, and to_tuple is all-zero when pixel width or
height is zero and (x, y, width, height) otherwise. -/
theorem c4_box_pixel_properties (b : Box) :
    b.x = b.min_x * b.dim_x
    ∧ b.y = b.dim_y - b.max_y * b.dim_y
    ∧ b.width = (b.max_x - b.min_x) * b.dim_x
    ∧ b.height = (b.max_y - b.min_y) * b.dim_y
    ∧ (b.width = 0 ∨ b.height = 0 → b.to_tuple = (0, 0, 0, 0))
    ∧ (¬(b.width = 0 ∨ b.height = 0) → b.to_tuple = (b.x, b.y, b.width, b.height)) := by
  refine ⟨rfl, rfl, rfl, rfl, fun h => ?_, fun h => ?_⟩
  · simp only [Box.to_tuple]
    rw [if_pos h]
  · simp only [Box.to_tuple]
    rw [if_neg h]

/-- C4 witness: both to_tuple branches at concrete boxes. -/
theorem c4_box_witness :
    (Box.mk 0 0 (1/2) (1/2) 640 480).to_tuple
      = ((Box.mk 0 0 (1/2) (1/2) 640 480).x, (Box.mk 0 0 (1/2) (1/2) 640 480).y,
          (Box.mk 0 0 (1/2) (1/2) 640 480).width, (Box.mk 0 0 (1/2) (1/2) 640 480).height)
    ∧ (Box.mk (1/4) (1/4) (1/4) (1/2) 640 480).to_tuple = (0, 0, 0, 0) := by
  constructor
  · exact (c4_box_pixel_properties (Box.mk 0 0 (1/2) (1/2) 640 480)).2.2.2.2.2
      (by norm_num [Box.width, Box.height])
  · exact (c4_box_pixel_properties (Box.mk (1/4) (1/4) (1/4) (1/2) 640 480)).2.2.2.2.1
      (Or.inl (by norm_num [Box.width]))

/-- C5 counterexample: on the scenario's pixel box (100, 50, 40, 20) and frame
640×480 the normalized height is 20/480 = 1/24, which is not the claimed exact
value 0.0417 (it only rounds to it). -/
theorem c5_height_is_not_exactly_0_0417 :
    (normalize (100, 50, 40, 20) 640 480).2.2.2 = 1/24
    ∧ ((1:ℚ)/24 ≠ 417/10000) := by
  constructor
  · norm_num [normalize]
  · norm_num

/-- C5 amended: normalize returns exactly ((x + width/2)/frame_width,
(y + height/2)/frame_height, width/frame_width, height/frame_height) with no
clamping, and the scenario box gives (3/16, 1/8, 1/16, 1/24), the last value
being 1/24 ≈ 0.0417 rather than exactly 0.0417. -/
theorem c5_normalize_formula (x y w h fw fh : ℚ) (_hfw : 0 < fw) (_hfh : 0 < fh) :
    normalize (x, y, w, h) fw fh = ((x + w / 2) / fw, (y + h / 2) / fh, w / fw, h / fh)
    ∧ normalize (100, 50, 40, 20) 640 480 = (3/16, 1/8, 1/16, 1/24) :=
  ⟨rfl, by norm_num [normalize]⟩

/-- C5 witness: the formula at the scenario's concrete input. -/
theorem c5_normalize_witness :
    normalize (100, 50, 40, 20) 640 480
      = ((100 + 40 / 2) / 640, (50 + 20 / 2) / 480, 40 / 640, 20 / 480) :=
  (c5_normalize_formula 100 50 40 20 640 480 (by norm_num) (by norm_num)).1

/-- C6: de-normalizing the output of normalize (multiplying each value by the
matching frame dimension and re-deriving the corner from the center) recovers
the original pixel box exactly over the rationals, for positive frame
dimensions and a non-degenerate box. -/
theorem c6_normalize_roundtrip (x y w h fw fh : ℚ) (hfw : 0 < fw) (hfh : 0 < fh)
    (_hw : 0 < w) (_hh : 0 < h) :
    (normalize (x, y, w, h) fw fh).2.2.1 * fw = w
    ∧ (normalize (x, y, w, h) fw fh).2.2.2 * fh = h
    ∧ (normalize (x, y, w, h) fw fh).1 * fw - (normalize (x, y, w, h) fw fh).2.2.1 * fw / 2 = x
    ∧ (normalize (x, y, w, h) fw fh).2.1 * fh - (normalize (x, y, w, h) fw fh).2.2.2 * fh / 2 = y := by
  have hfw0 : fw ≠ 0 := ne_of_gt hfw
  have hfh0 : fh ≠ 0 := ne_of_gt hfh
  simp only [normalize]
  refine ⟨?_, ?_, ?_, ?_⟩ <;> field_simp <;> ring

/-- C6 witness: the round-trip at the scenario's concrete box. -/
theorem c6_roundtrip_witness :
    (normalize (100, 50, 40, 20) 640 480).2.2.1 * 640 = 40
    ∧ (normalize (100, 50, 40, 20) 640 480).2.2.2 * 480 = 20
    ∧ (normalize (100, 50, 40, 20) 640 480).1 * 640
        - (normalize (100, 50, 40, 20) 640 480).2.2.1 * 640 / 2 = 100
    ∧ (normalize (100, 50, 40, 20) 640 480).2.1 * 480
        - (normalize (100, 50, 40, 20) 640 480).2.2.2 * 480 / 2 = 50 :=
  c6_normalize_roundtrip 100 50 40 20 640 480 (by norm_num) (by norm_num)
    (by norm_num) (by norm_num)

/-- C7: the claim says a zero-depth vertex under a perspective camera yields the
single projected point (0.5, 0.5); the source does skip the depth division (the
frame comes back unchanged, so the rescale branch never ran) and appends
(1/2, 1/2), but for lack of a continue it falls through and appends the
frame-based projection (3/4, 1/2) of the same vertex too, polluting the
extracted bounds, whose max_x here is 3/4 instead of 1/2. -/
theorem c7_zero_depth_guard_and_fallthrough :
    vertexStep true ([], [], testFrame) ⟨1/4, 0, 0⟩ = ([1/2, 3/4], [1/2, 1/2], testFrame)
    ∧ ([1/2, 3/4] : List ℚ) ≠ [1/2]
    ∧ (camera_view_bounds_2d true testFrame [⟨1/4, 0, 0⟩] 640 480).map Box.max_x = some (3/4) := by
  refine ⟨?_, by simp, ?_⟩
  · norm_num [vertexStep, testFrame]
  · norm_num [camera_view_bounds_2d, vertexStep, testFrame, extractedBox, boundsDecision,
      bad_bbox, ruleCorner, ruleStraddle, clamp, listMin, listMax, Box.max_x, min_def, max_def]

/-- C8: a box whose to_tuple is the all-zero tuple makes write_bounds_2d return
None and contributes no label line; a box whose to_tuple has a nonzero
component makes write_bounds_2d return that tuple and contributes exactly one
line; and the scenario extents min_u = -1/5, max_u = 13/10 are zeroed by the
straddle rule, so the resulting box is silently suppressed. -/
theorem c8_suppressed_boxes_emit_nothing (b : Box) (fw fh : ℚ) :
    (b.to_tuple = (0, 0, 0, 0) → write_bounds_2d b = none ∧ objectLabel b fw fh = "")
    ∧ (b.to_tuple ≠ (0, 0, 0, 0) →
        write_bounds_2d b = some b.to_tuple
        ∧ objectLabel b fw fh
            = labelLine (normalize b.to_tuple fw fh).1 (normalize b.to_tuple fw fh).2.1
                (normalize b.to_tuple fw fh).2.2.1 (normalize b.to_tuple fw fh).2.2.2)
    ∧ boundsDecision (-1/5) (13/10) (1/4) (3/4) = (0, 0, 0, 0)
    ∧ write_bounds_2d (extractedBox (-1/5) (13/10) (1/4) (3/4) 640 480) = none
    ∧ objectLabel (extractedBox (-1/5) (13/10) (1/4) (3/4) 640 480) fw fh = "" := by
  have hbx : extractedBox (-1/5) (13/10) (1/4) (3/4) 640 480 = Box.mk 0 0 0 0 640 480 := by
    norm_num [extractedBox, boundsDecision, bad_bbox, ruleCorner, ruleStraddle, clamp,
      min_def, max_def]
  have hz : write_bounds_2d (Box.mk 0 0 0 0 640 480) = none := by
    norm_num [write_bounds_2d, Box.to_tuple, Box.width, count_nonzero]
  refine ⟨fun h => ?_, fun h => ?_, ?_, ?_, ?_⟩
  · have hw : write_bounds_2d b = none := by simp [write_bounds_2d, h, count_nonzero]
    exact ⟨hw, by simp [objectLabel, hw]⟩
  · have hc : count_nonzero b.to_tuple ≠ 0 := fun h0 =>
      h ((count_nonzero_eq_zero_iff b.to_tuple).mp h0)
    have hw : write_bounds_2d b = some b.to_tuple := by simp [write_bounds_2d, hc]
    exact ⟨hw, by simp only [objectLabel, hw]⟩
  · norm_num [boundsDecision, bad_bbox, ruleCorner, ruleStraddle, clamp, min_def, max_def]
  · rw [hbx]
    exact hz
  · rw [hbx]
    simp [objectLabel, hz]

/-- C8 witness: both branches of the theorem at concrete boxes, the suppressed
one being the box the scenario extents produce. -/
theorem c8_emission_witness :
    write_bounds_2d (Box.mk 0 0 0 0 640 480) = none
    ∧ objectLabel (Box.mk 0 0 0 0 640 480) 640 480 = ""
    ∧ write_bounds_2d (Box.mk 0 0 (1/2) (1/2) 640 480)
        = some ((Box.mk 0 0 (1/2) (1/2) 640 480).to_tuple) := by
  have h1 := (c8_suppressed_boxes_emit_nothing (Box.mk 0 0 0 0 640 480) 640 480).1
    (by norm_num [Box.to_tuple, Box.width])
  have h2 := (c8_suppressed_boxes_emit_nothing (Box.mk 0 0 (1/2) (1/2) 640 480) 640 480).2.1
    (by norm_num [Box.to_tuple, Box.x, Box.y, Box.width, Box.height])
  exact ⟨h1.1, h1.2, h2.1⟩

/-- C9 counterexample: main normalizes by the raw resolution while the Box
carries resolution · resolution_percentage/100, so with percentage 200 the
extraction of extents (1/2, 1, 1/2, 1) on a 640×480 scene emits the line
labelLine (3/2) (1/2) 1 1, whose x_center 3/2 is outside [0, 1]. -/
theorem c9_emitted_value_can_exceed_one :
    renderDims 640 480 200 = (1280, 960)
    ∧ boundsDecision (1/2) 1 (1/2) 1 = (1/2, 1/2, 1, 1)
    ∧ objectLabel (extractedBox (1/2) 1 (1/2) 1 1280 960) 640 480 = labelLine (3/2) (1/2) 1 1
    ∧ ¬((3:ℚ)/2 ≤ 1) := by
  have hbx : extractedBox (1/2) 1 (1/2) 1 1280 960 = Box.mk (1/2) (1/2) 1 1 1280 960 := by
    norm_num [extractedBox, boundsDecision, bad_bbox, ruleCorner, ruleStraddle, clamp,
      min_def, max_def]
  have hw : write_bounds_2d (Box.mk (1/2) (1/2) 1 1 1280 960) = some (640, 0, 640, 480) := by
    norm_num [write_bounds_2d, Box.to_tuple, Box.x, Box.y, Box.width, Box.height, count_nonzero]
  have hn : normalize (640, 0, 640, 480) 640 480 = (3/2, 1/2, 1, 1) := by norm_num [normalize]
  refine ⟨by norm_num [renderDims], ?_, ?_, by norm_num⟩
  · norm_num [boundsDecision, bad_bbox, ruleCorner, ruleStraddle, clamp, min_def, max_def]
  · rw [hbx]
    simp only [objectLabel, hw]
    rw [hn]

/-- C9 amended: every emitted label line is labelLine on the normalized values
(class id 0, trailing newline, by the shape of labelLine), those four values
all lie in [0, 1] provided the Box render dimensions do not exceed the frame
dimensions main normalizes by (true exactly when resolution_percentage ≤ 100),
and the label file name carries the zfill-4 frame index, exactly four digits
for frame indices below 10000. -/
theorem c9_label_line_invariants (mu Mu mv Mv dx dy fw fh : ℚ)
    (hmM : mu ≤ Mu) (hvM : mv ≤ Mv) (hdx : 0 ≤ dx) (hdy : 0 ≤ dy)
    (hxf : dx ≤ fw) (hyf : dy ≤ fh) (hfw : 0 < fw) (hfh : 0 < fh) :
    (∀ t, write_bounds_2d (extractedBox mu Mu mv Mv dx dy) = some t →
      (0 ≤ (normalize t fw fh).1 ∧ (normalize t fw fh).1 ≤ 1)
      ∧ (0 ≤ (normalize t fw fh).2.1 ∧ (normalize t fw fh).2.1 ≤ 1)
      ∧ (0 ≤ (normalize t fw fh).2.2.1 ∧ (normalize t fw fh).2.2.1 ≤ 1)
      ∧ (0 ≤ (normalize t fw fh).2.2.2 ∧ (normalize t fw fh).2.2.2 ≤ 1)
      ∧ objectLabel (extractedBox mu Mu mv Mv dx dy) fw fh
          = labelLine (normalize t fw fh).1 (normalize t fw fh).2.1
              (normalize t fw fh).2.2.1 (normalize t fw fh).2.2.2)
    ∧ (∀ n : Nat, n < 10000 →
        labelFilename n = "frame_" ++ zfill 4 (Nat.repr n) ++ ".txt"
        ∧ (zfill 4 (Nat.repr n)).length = 4) := by
  constructor
  · intro t ht
    by_cases hbad : bad_bbox mu Mu mv Mv = true
    · exfalso
      have hbx : extractedBox mu Mu mv Mv dx dy = Box.mk 0 0 0 0 dx dy := by
        simp [extractedBox, boundsDecision, hbad]
      rw [hbx] at ht
      have htt : (Box.mk 0 0 0 0 dx dy).to_tuple = (0, 0, 0, 0) := by
        simp [Box.to_tuple, Box.width]
      simp [write_bounds_2d, htt, count_nonzero] at ht
    · have hbad2 : bad_bbox mu Mu mv Mv = false := by
        cases hb : bad_bbox mu Mu mv Mv
        · rfl
        · exact absurd hb hbad
      have hbx : extractedBox mu Mu mv Mv dx dy
          = Box.mk (clamp mu 0 1) (clamp mv 0 1) (clamp Mu 0 1) (clamp Mv 0 1) dx dy := by
        simp [extractedBox, boundsDecision, hbad2]
      set a := clamp mu 0 1 with ha
      set b := clamp mv 0 1 with hb
      set c := clamp Mu 0 1 with hc
      set d := clamp Mv 0 1 with hd
      have h0a : 0 ≤ a := clamp01_nonneg mu
      have h1a : a ≤ 1 := clamp01_le_one mu
      have h0b : 0 ≤ b := clamp01_nonneg mv
      have h1b : b ≤ 1 := clamp01_le_one mv
      have h0c : 0 ≤ c := clamp01_nonneg Mu
      have h1c : c ≤ 1 := clamp01_le_one Mu
      have h0d : 0 ≤ d := clamp01_nonneg Mv
      have h1d : d ≤ 1 := clamp01_le_one Mv
      have hac : a ≤ c := clamp01_mono hmM
      have hbd : b ≤ d := clamp01_mono hvM
      rw [hbx] at ht ⊢
      by_cases hdeg : (Box.mk a b c d dx dy).width = 0 ∨ (Box.mk a b c d dx dy).height = 0
      · exfalso
        have htt : (Box.mk a b c d dx dy).to_tuple = (0, 0, 0, 0) := by
          simp only [Box.to_tuple]
          rw [if_pos hdeg]
        simp [write_bounds_2d, htt, count_nonzero] at ht
      · have hwnz : (Box.mk a b c d dx dy).width ≠ 0 := fun h0 => hdeg (Or.inl h0)
        have htt : (Box.mk a b c d dx dy).to_tuple
            = ((Box.mk a b c d dx dy).x, (Box.mk a b c d dx dy).y,
                (Box.mk a b c d dx dy).width, (Box.mk a b c d dx dy).height) := by
          simp only [Box.to_tuple]
          rw [if_neg hdeg]
        have hcnz : count_nonzero ((Box.mk a b c d dx dy).to_tuple) ≠ 0 := by
          rw [htt]
          simp only [count_nonzero]
          rw [if_neg hwnz]
          split_ifs <;> simp
        have hwt : write_bounds_2d (Box.mk a b c d dx dy)
            = some ((Box.mk a b c d dx dy).to_tuple) := by
          simp [write_bounds_2d, hcnz]
        rw [hwt] at ht
        have htv : t = ((Box.mk a b c d dx dy).x, (Box.mk a b c d dx dy).y,
            (Box.mk a b c d dx dy).width, (Box.mk a b c d dx dy).height) := by
          injection ht with ht2
          rw [← ht2, htt]
        subst htv
        have hlab : objectLabel (Box.mk a b c d dx dy) fw fh
            = labelLine (normalize ((Box.mk a b c d dx dy).to_tuple) fw fh).1
                (normalize ((Box.mk a b c d dx dy).to_tuple) fw fh).2.1
                (normalize ((Box.mk a b c d dx dy).to_tuple) fw fh).2.2.1
                (normalize ((Box.mk a b c d dx dy).to_tuple) fw fh).2.2.2 := by
          simp only [objectLabel, hwt]
        rw [htt] at hlab
        refine ⟨?_, ?_, ?_, ?_, hlab⟩
        · simp only [normalize, Box.x, Box.y, Box.width, Box.height]
          refine div_in_unit ?_ ?_ hxf hfw
          · nlinarith [mul_nonneg h0a hdx, mul_nonneg (mul_nonneg (by linarith : (0:ℚ) ≤ c - a) hdx) (by norm_num : (0:ℚ) ≤ 1/2)]
          · nlinarith [mul_nonneg hdx (by linarith : (0:ℚ) ≤ 2 - a - c)]
        · simp only [normalize, Box.x, Box.y, Box.width, Box.height]
          refine div_in_unit ?_ ?_ hyf hfh
          · nlinarith [mul_nonneg hdy (by linarith : (0:ℚ) ≤ 2 - b - d)]
          · nlinarith [mul_nonneg hdy (by linarith : (0:ℚ) ≤ b + d)]
        · simp only [normalize, Box.x, Box.y, Box.width, Box.height]
          refine div_in_unit ?_ ?_ hxf hfw
          · exact mul_nonneg (by linarith) hdx
          · nlinarith [mul_nonneg hdx (by linarith : (0:ℚ) ≤ 1 - c + a)]
        · simp only [normalize, Box.x, Box.y, Box.width, Box.height]
          refine div_in_unit ?_ ?_ hyf hfh
          · exact mul_nonneg (by linarith) hdy
          · nlinarith [mul_nonneg hdy (by linarith : (0:ℚ) ≤ 1 - d + b)]
  · intro n hn
    refine ⟨rfl, ?_⟩
    have hle : (Nat.repr n).length ≤ 4 := Nat.repr_length n 4 (by norm_num) (by omega)
    rw [zfill]
    by_cases hlt : (Nat.repr n).length < 4
    · rw [if_pos hlt]
      rw [String.length_append, String.length_mk, List.length_replicate]
      omega
    · rw [if_neg hlt]
      omega

/-- C9 witness: the range bounds and the file-name length at a concrete
in-range extraction (extents (1/4, 1/2) on both axes, 640×480 at 100%), and
frame index 15. -/
theorem c9_label_line_witness :
    (0 ≤ (normalize ((extractedBox (1/4) (1/2) (1/4) (1/2) 640 480).to_tuple) 640 480).1
      ∧ (normalize ((extractedBox (1/4) (1/2) (1/4) (1/2) 640 480).to_tuple) 640 480).1 ≤ 1)
    ∧ (zfill 4 (Nat.repr 15)).length = 4 := by
  have H := c9_label_line_invariants (1/4) (1/2) (1/4) (1/2) 640 480 640 480
    (by norm_num) (by norm_num) (by norm_num) (by norm_num) (by norm_num) (by norm_num)
    (by norm_num) (by norm_num)
  have hbx : extractedBox (1/4) (1/2) (1/4) (1/2) 640 480
      = Box.mk (1/4) (1/4) (1/2) (1/2) 640 480 := by
    norm_num [extractedBox, boundsDecision, bad_bbox, ruleCorner, ruleStraddle, clamp,
      min_def, max_def]
  have hsome : write_bounds_2d (extractedBox (1/4) (1/2) (1/4) (1/2) 640 480)
      = some ((extractedBox (1/4) (1/2) (1/4) (1/2) 640 480).to_tuple) := by
    rw [hbx]
    norm_num [write_bounds_2d, Box.to_tuple, Box.x, Box.y, Box.width, Box.height, count_nonzero]
  exact ⟨(H.1 _ hsome).1, (H.2 15 (by norm_num)).2⟩

/-- C10: a Box with all-zero bounds and positive render dimensions has x = 0,
width = 0, height = 0 but raster y = dim_y ≠ 0; its to_tuple is nevertheless
the all-zero tuple because the width is zero, so the nonzero y is never exposed
through to_tuple. -/
theorem c10_zero_bounds_sentinel (dx dy : ℚ) (_hdx : 0 < dx) (hdy : 0 < dy) :
    (Box.mk 0 0 0 0 dx dy).x = 0
    ∧ (Box.mk 0 0 0 0 dx dy).width = 0
    ∧ (Box.mk 0 0 0 0 dx dy).height = 0
    ∧ (Box.mk 0 0 0 0 dx dy).y = dy
    ∧ (Box.mk 0 0 0 0 dx dy).y ≠ 0
    ∧ (Box.mk 0 0 0 0 dx dy).to_tuple = (0, 0, 0, 0) := by
  refine ⟨by simp [Box.x], by simp [Box.width], by simp [Box.height], by simp [Box.y], ?_, ?_⟩
  · simp only [Box.y]
    simpa using ne_of_gt hdy
  · simp [Box.to_tuple, Box.width]

/-- C10 witness: the sentinel box at 640×480. -/
theorem c10_sentinel_witness :
    (Box.mk 0 0 0 0 (640:ℚ) 480).y = 480
    ∧ (Box.mk 0 0 0 0 (640:ℚ) 480).y ≠ 0
    ∧ (Box.mk 0 0 0 0 (640:ℚ) 480).to_tuple = (0, 0, 0, 0) := by
  have H := c10_zero_bounds_sentinel 640 480 (by norm_num) (by norm_num)
  exact ⟨H.2.2.2.1, H.2.2.2.2.1, H.2.2.2.2.2⟩

end RenderLabeling
